import Mathlib

/-!
Verification of the `doi-to-pmid` tool (`src/main.py`).

The program resolves DOI strings to PMID/PMCID identifiers via the Europe PMC
REST API and renders bracketed hyperlink annotations; in bibliography mode it
appends the annotation to the `note` field of each BibTeX entry carrying a
`doi` field.

The embedding below is a shallow, executable translation of `src/main.py`
together with the parts of CPython 3.11's `urllib.parse.urlparse` that
`DoiInfo.sanitize` depends on.  Side effects are made explicit:

* the HTTP layer (`requests.get`) becomes an oracle `api : String → ApiResponse`
  mapping the request URL to the (already JSON-decoded) response; the response
  body is modelled in the API's documented shape
  `\x7b resultList : \x7b result : [ \x7b pmid?, pmcid? \x7d ] \x7d \x7d`;
* `print` calls, HTTP requests and the output-file write become an explicit
  `Effect` trace;
* Python exceptions (`urlparse` raising `ValueError`) become `Except String`.

Modelling notes for `urlparse` (CPython 3.11, `Lib/urllib/parse.py`, with the
WHATWG security patches, checked against the interpreter's behaviour):
`urlsplit` left-strips C0-control/space characters, removes the unsafe bytes
tab/CR/LF, detects a scheme before the first colon, splits a `//`-prefixed
netloc at the first of `/ ? #`, raises `ValueError` on a netloc containing a
mismatched square bracket, then splits off fragment and query; `urlparse`
additionally strips `;params` from the last path segment when the scheme uses
params.  Two conservative approximations, both only about when `ValueError`
is raised, never about the value of a successful parse: (1) a netloc
containing a matched bracket pair is accepted by Python only for a valid
IPv6/IPvFuture literal (`_check_bracketed_host`, full `ipaddress` parsing) —
the model rejects every bracketed netloc; (2) the final `_checknetloc` guard
raises for a non-ASCII netloc exactly when NFKC normalization introduces a
delimiter character — the model rejects every non-ASCII netloc.  Every input
appearing in the theorems below has a bracket-free, ASCII netloc, where the
model is exact.
-/

/-- Python `str.isascii` for a single character: code point below 128. -/
def isAsciiChar (c : Char) : Bool :=
  c.toNat ≤ 127

/-- Equality of `Except` values is decidable componentwise; used so that the
concrete evaluations below can be checked with `decide`. -/
instance {ε α : Type} [DecidableEq ε] [DecidableEq α] : DecidableEq (Except ε α) := fun a b =>
  match a, b with
  | .ok x, .ok y =>
      if h : x = y then .isTrue (by rw [h]) else .isFalse (by intro hc; cases hc; exact h rfl)
  | .error x, .error y =>
      if h : x = y then .isTrue (by rw [h]) else .isFalse (by intro hc; cases hc; exact h rfl)
  | .ok _, .error _ => .isFalse (by intro hc; cases hc)
  | .error _, .ok _ => .isFalse (by intro hc; cases hc)

/-- Python `url.find(c)`-based single split, as used by `str.split(c, 1)`:
`some (before, after)` around the first occurrence of `c`, or `none` when `c`
does not occur. -/
def splitFirst (c : Char) (l : List Char) : Option (List Char × List Char) :=
  if c ∈ l then
    some (l.takeWhile (fun x => x != c), (l.dropWhile (fun x => x != c)).drop 1)
  else
    none

/-- Membership in `_WHATWG_C0_CONTROL_OR_SPACE`: the C0 control characters
`\x00`-`\x1f` together with the space `\x20`. -/
def isC0OrSpace (c : Char) : Bool :=
  c.toNat ≤ 32

/-- `url.lstrip(_WHATWG_C0_CONTROL_OR_SPACE)`: urlsplit strips leading (only
leading) C0-control/space characters from the URL. -/
def lstripC0 (l : List Char) : List Char :=
  l.dropWhile isC0OrSpace

/-- `_UNSAFE_URL_BYTES_TO_REMOVE = ['\t', '\r', '\n']`: urlsplit removes every
tab, carriage return and newline from the URL before parsing. -/
def removeUnsafe (l : List Char) : List Char :=
  l.filter (fun c => !(c == '\t' || c == '\r' || c == '\n'))

/-- Characters allowed in a scheme name (`scheme_chars` in `urllib.parse`):
ASCII letters, digits, and `+`, `-`, `.`. -/
def isSchemeChar (c : Char) : Bool :=
  c.isAlpha || c.isDigit || c == '+' || c == '-' || c == '.'

/-- The guard of urlsplit's scheme detection applied to the text before the
first colon: Python's `i > 0 and url[0].isascii() and url[0].isalpha()`
followed by `for c in url[:i]: if c not in scheme_chars: break / else:`. -/
def schemeOk : List Char → Bool
  | [] => false
  | c :: cs => c.isAlpha && (c :: cs).all isSchemeChar

/-- Scheme detection step of urlsplit: on success the scheme is lowercased and
the text after the colon is kept; otherwise the URL is left whole.
Returns `(scheme, rest)`. -/
def schemeSplit (l : List Char) : List Char × List Char :=
  match splitFirst ':' l with
  | some (before, after) =>
      if schemeOk before then (before.map Char.toLower, after) else ([], l)
  | none => ([], l)

/-- Not one of the netloc delimiters `/ ? #` searched by `_splitnetloc`. -/
def notNetlocDelim (c : Char) : Bool :=
  !(c == '/' || c == '?' || c == '#')

/-- Netloc step of urlsplit: when the URL starts with `//`, split the rest at
the first of `/ ? #` (`_splitnetloc(url, 2)`); otherwise no netloc.
Returns `(netloc, rest)`. -/
def netlocSplit (l : List Char) : List Char × List Char :=
  if l.take 2 = ['/', '/'] then
    ((l.drop 2).takeWhile notNetlocDelim, (l.drop 2).dropWhile notNetlocDelim)
  else
    ([], l)

/-- Fragment step of urlsplit: `if '#' in url: url, fragment = url.split('#', 1)`.
Returns `(rest, fragment)`. -/
def fragmentSplit (l : List Char) : List Char × List Char :=
  match splitFirst '#' l with
  | some (before, after) => (before, after)
  | none => (l, [])

/-- Query step of urlsplit: `if '?' in url: url, query = url.split('?', 1)`.
Returns `(rest, query)`. -/
def querySplit (l : List Char) : List Char × List Char :=
  match splitFirst '?' l with
  | some (before, after) => (before, after)
  | none => (l, [])

/-- Result of `urlsplit`, Python's `SplitResult` named tuple. -/
structure SplitResult where
  scheme : List Char
  netloc : List Char
  path : List Char
  query : List Char
  fragment : List Char
deriving DecidableEq, Repr

/-- `urllib.parse.urlsplit` (CPython 3.11.6) with default arguments, over the
characters of the URL.  `Except.error` stands for a raised `ValueError`: a
mismatched square bracket in the netloc ("Invalid IPv6 URL"), or the
conservatively modelled `_checknetloc` failure for a non-ASCII netloc (see the
module docstring). -/
def urlsplit (url0 : List Char) : Except String SplitResult :=
  let url1 := removeUnsafe (lstripC0 url0)
  let s := schemeSplit url1
  let n := netlocSplit s.2
  if ('[' ∈ n.1 ∧ ']' ∉ n.1) ∨ (']' ∈ n.1 ∧ '[' ∉ n.1) then
    .error "Invalid IPv6 URL"
  else if '[' ∈ n.1 ∧ ']' ∈ n.1 then
    .error "bracketed host, conservatively rejected by the model"
  else
    let f := fragmentSplit n.2
    let q := querySplit f.1
    if n.1.all isAsciiChar then
      .ok ⟨s.1, n.1, q.1, q.2, f.2⟩
    else
      .error "netloc contains invalid characters under NFKC normalization"

/-- `uses_params` from `urllib.parse`: the schemes for which `urlparse`
separates `;params` from the path. -/
def uses_params : List (List Char) :=
  ["", "ftp", "hdl", "prospero", "http", "imap", "https", "shttp", "rtsp",
   "rtsps", "rtspu", "sip", "sips", "mms", "sftp", "tel"].map String.data

/-- `_splitparams(url)`: cut `;params` off the last path segment (or off the
whole string when it contains no `/`).  Returns `(path, params)`.  In Python
the function is only ever called when `;` occurs in the string; the
`splitFirst = none` fallbacks transcribe `url[:i], url[i+1:]` at `i = -1`. -/
def splitparams (l : List Char) : List Char × List Char :=
  if '/' ∈ l then
    match splitFirst ';' ((l.reverse.takeWhile (fun c => c != '/')).reverse) with
    | some (b, a) =>
        (l.take (l.length - ((l.reverse.takeWhile (fun c => c != '/')).reverse).length) ++ b, a)
    | none => (l, [])
  else
    match splitFirst ';' l with
    | some (b, a) => (b, a)
    | none => (l.dropLast, l)

/-- Result of `urlparse`, Python's `ParseResult` named tuple. -/
structure ParseResult where
  scheme : List Char
  netloc : List Char
  path : List Char
  params : List Char
  query : List Char
  fragment : List Char
deriving DecidableEq, Repr

/-- `urllib.parse.urlparse` (CPython 3.11.6) with default arguments:
`urlsplit`, then `if scheme in uses_params and ';' in url: _splitparams`. -/
def urlparse (url : List Char) : Except String ParseResult := do
  let s ← urlsplit url
  if s.scheme ∈ uses_params ∧ ';' ∈ s.path then
    let p := splitparams s.path
    return ⟨s.scheme, s.netloc, p.1, p.2, s.query, s.fragment⟩
  else
    return ⟨s.scheme, s.netloc, s.path, [], s.query, s.fragment⟩

/-- Python `str.lstrip("/")`: drop the leading slashes. -/
def lstripSlash (l : List Char) : List Char :=
  l.dropWhile (fun c => c == '/')

/-- In CPython a call to `urlparse` that returns at all never returns `None`,
so the `if urlparse(doi) is not None` test in `DoiInfo.sanitize` always
succeeds. -/
def parseResultIsNotNone (_ : ParseResult) : Bool := true

/-- `DoiInfo.sanitize` (src/main.py lines 22-28): parse the DOI as a URL and
return its path with leading slashes stripped; the `return doi` fallback for a
`None` parse is unreachable.  An `Except.error` is a `ValueError` propagating
out of `urlparse`. -/
def DoiInfo.sanitize (doi : String) : Except String String := do
  let r ← urlparse doi.data
  if parseResultIsNotNone r then
    return String.mk (lstripSlash r.path)
  return doi

/-- The identifier record of `src/main.py` (class `DoiInfo`).  In Python
`pmid`/`pmcid` default to `None` and the three link fields default to their
base URLs; each instance performs at most one `+=` on each link (creating an
instance attribute from the class default), so per-instance immutable fields
initialized to the class defaults are a faithful model. -/
structure DoiInfo where
  doi : String
  pmid : Option String := none
  pmcid : Option String := none
  doi_link : String := "http://dx.doi.org/"
  pm_link : String := "http://www.ncbi.nlm.nih.gov/pubmed/"
  pmc_link : String := "http://www.ncbi.nlm.nih.gov/pmc/articles/"
deriving DecidableEq, Repr

/-- `DoiInfo.__init__` (src/main.py lines 30-32): sanitize the DOI and append
it to the DOI link base.  A `ValueError` raised by `urlparse` propagates. -/
def DoiInfo.init (doi0 : String) : Except String DoiInfo := do
  let d ← DoiInfo.sanitize doi0
  return { doi := d, doi_link := "http://dx.doi.org/" ++ d }

/-- `DoiInfo.has_pmid`: `self.pmid is not None`. -/
def DoiInfo.has_pmid (info : DoiInfo) : Bool :=
  info.pmid.isSome

/-- `DoiInfo.has_pmcid`: `self.pmcid is not None`. -/
def DoiInfo.has_pmcid (info : DoiInfo) : Bool :=
  info.pmcid.isSome

/-- One element of the API's `resultList.result` array; the optional JSON
keys `pmid` and `pmcid` are `Option`s. -/
structure ApiResult where
  pmid : Option String := none
  pmcid : Option String := none
deriving DecidableEq, Repr

/-- An HTTP response from the lookup API: the status code together with the
JSON body, modelled already decoded in the documented shape
`resultList.result` (a malformed body would raise out of `response.json()`;
all claims concern well-shaped responses). -/
structure ApiResponse where
  status_code : Nat
  results : List ApiResult
deriving DecidableEq, Repr

/-- Observable side effects of the program: an HTTP GET, a printed line
(stdout, `print`), or a write of the output bibliography file. -/
inductive Effect where
  | httpGet (url : String)
  | printLine (line : String)
  | writeFile (filename : String)
deriving DecidableEq, Repr

/-- The lines printed to stdout within an effect trace. -/
def printedLines (effs : List Effect) : List String :=
  effs.filterMap (fun e => match e with | .printLine s => some s | _ => none)

/-- The URLs of the HTTP GET requests within an effect trace. -/
def lookupUrls (effs : List Effect) : List String :=
  effs.filterMap (fun e => match e with | .httpGet u => some u | _ => none)

/-- The filenames written within an effect trace. -/
def writtenFiles (effs : List Effect) : List String :=
  effs.filterMap (fun e => match e with | .writeFile f => some f | _ => none)

/-- The Europe PMC search URL built in `DoiInfo.analyze` (line 44). -/
def requestUrl (info : DoiInfo) : String :=
  "https://www.ebi.ac.uk/europepmc/webservices/rest/search?query=doi:" ++ info.doi ++ "&format=json"

/-- Python `str.split(c)` for a one-character separator: the list of maximal
separator-free pieces, with empty pieces kept (`"".split(c) == [""]`). -/
def splitOnChar (c : Char) : List Char → List (List Char)
  | [] => [[]]
  | x :: xs =>
      if x == c then [] :: splitOnChar c xs
      else
        match splitOnChar c xs with
        | s :: rest => (x :: s) :: rest
        | [] => [[x]]

/-- `value.split("/")[-1]` (src/main.py line 57): the final slash-separated
segment of the PMCID value.  `split` always returns a nonempty list, so the
`getLastD` default is never used. -/
def lastSlashSegment (s : String) : String :=
  String.mk ((splitOnChar '/' s.data).getLastD s.data)

/-- `DoiInfo.analyze` (src/main.py lines 41-64): send one GET request to the
Europe PMC API (the oracle `api` maps the request URL to the response), then
populate `pmid`/`pmcid` and their links from the first result, printing a
warning for each missing piece.  Returns the updated record and the effect
trace (the GET followed by the printed warnings, in program order).  No
exception is raised for any response: every branch returns normally. -/
def DoiInfo.analyze (info : DoiInfo) (api : String → ApiResponse) : DoiInfo × List Effect :=
  let url := requestUrl info
  let response := api url
  if response.status_code = 200 then
    match response.results with
    | data :: _ =>
        let r1 :=
          match data.pmid with
          | some p => ({ info with pmid := some p, pm_link := info.pm_link ++ p },
                       ([] : List Effect))
          | none => (info, [Effect.printLine ("PMID not found for " ++ info.doi)])
        let r2 :=
          match data.pmcid with
          | some v =>
              let seg := lastSlashSegment v
              ({ r1.1 with pmcid := some seg, pmc_link := r1.1.pmc_link ++ seg },
               ([] : List Effect))
          | none => (r1.1, [Effect.printLine ("PMCID not found for " ++ info.doi)])
        (r2.1, Effect.httpGet url :: (r1.2 ++ r2.2))
    | [] => (info, [Effect.httpGet url, Effect.printLine ("Error: Wrong DOI - " ++ info.doi)])
  else
    (info, [Effect.httpGet url, Effect.printLine ("Error: DOI not found - " ++ info.doi)])

/-- `DoiInfo.__str__` (src/main.py lines 66-73): up to three bracketed
segments, PubMed then PubMed Central then DOI; the PMID/PMCID segments are
emitted only under `has_pmid()`/`has_pmcid()`, in which case the match arms
below read the identifier just as the f-strings do. -/
def DoiInfo.str (info : DoiInfo) : String :=
  let ret := ""
  let ret :=
    match info.pmid with
    | some p => ret ++ "[PubMed:\\href\x7b" ++ info.pm_link ++ "\x7d\x7b" ++ p ++ "\x7d]"
    | none => ret
  let ret :=
    match info.pmcid with
    | some pc => ret ++ "[PubMed Central:\\href\x7b" ++ info.pmc_link ++ "\x7d\x7b" ++ pc ++ "\x7d]"
    | none => ret
  ret ++ "[doi:\\href\x7b" ++ info.doi_link ++ "\x7d\x7b" ++ info.doi ++ "\x7d]"

/-- A BibTeX entry as the parsing library presents it: a mapping from field
names to values (Python dict, keys unique, insertion-ordered). -/
abbrev Entry := List (String × String)

/-- Python dict lookup `entry[k]` / membership `k in entry` on an entry. -/
def getField (e : Entry) (k : String) : Option String :=
  match e with
  | [] => none
  | (k1, v) :: rest => if k1 == k then some v else getField rest k

/-- Python dict update `entry[k] = v`: replace the value in place when the
key exists, otherwise append the new key at the end. -/
def setField (e : Entry) (k : String) (v : String) : Entry :=
  match e with
  | [] => [(k, v)]
  | (k1, v1) :: rest => if k1 == k then (k1, v) :: rest else (k1, v1) :: setField rest k v

/-- The rendered annotation the bibliography rewriter appends for one DOI
field value: construct the `DoiInfo`, analyze it, render `__str__`. -/
def annotationFor (api : String → ApiResponse) (d : String) : Except String String := do
  let info ← DoiInfo.init d
  return (info.analyze api).1.str

/-- The body of the bibliography-mode loop (src/main.py lines 109-119): if the
entry has a `doi` field, resolve it and append the rendered annotation to the
`note` field (creating `note` when absent); otherwise leave the entry alone. -/
def processEntry (api : String → ApiResponse) (entry : Entry) : Except String (Entry × List Effect) :=
  match getField entry "doi" with
  | some d => do
      let info ← DoiInfo.init d
      let r := info.analyze api
      match getField entry "note" with
      | some old => return (setField entry "note" (old ++ r.1.str), r.2)
      | none => return (setField entry "note" r.1.str, r.2)
  | none => .ok (entry, [])

/-- The bibliography-mode loop over all entries, collecting the rewritten
entries and the effect trace in document order. -/
def processEntries (api : String → ApiResponse) : List Entry → Except String (List Entry × List Effect)
  | [] => .ok ([], [])
  | e :: es => do
      let r1 ← processEntry api e
      let r2 ← processEntries api es
      return (r1.1 :: r2.1, r1.2 ++ r2.2)

/-- Bibliography mode (src/main.py lines 101-133): rewrite every entry of the
parsed document, then write the serialized document to the output file. -/
def bibliographyMode (api : String → ApiResponse) (entries : List Entry) (out : String) :
    Except String (List Effect) := do
  let r ← processEntries api entries
  return r.2 ++ [Effect.writeFile out]

/-- One iteration of DOI-list mode (src/main.py lines 135-138): construct,
analyze, `print(info)`. -/
def printDoi (api : String → ApiResponse) (doi0 : String) : Except String (List Effect) := do
  let info ← DoiInfo.init doi0
  let r := info.analyze api
  return r.2 ++ [Effect.printLine r.1.str]

/-- DOI-list mode: resolve and print each DOI in argument order. -/
def doiListMode (api : String → ApiResponse) : List String → Except String (List Effect)
  | [] => .ok []
  | d :: ds => do
      let e1 ← printDoi api d
      let e2 ← doiListMode api ds
      return e1 ++ e2

/-- The parsed command-line arguments, as argparse delivers them to `main`:
`--doi` is a boolean flag, the positional DOIs default to `[]`, and
`--output`/`--bibtex` default to `None`. -/
structure Args where
  doi : Bool := false
  dois : List String := []
  output : Option String := none
  bibtex : Option String := none
deriving DecidableEq, Repr

/-- Python truthiness of an optional string (`if args.bibtex:`): `None` and
the empty string are falsy. -/
def truthyStr : Option String → Bool
  | none => false
  | some s => !s.isEmpty

/-- The output filename (src/main.py lines 98-100): `modified.bib` unless a
truthy `--output` was given. -/
def outFilename (args : Args) : String :=
  match args.output with
  | some o => if !o.isEmpty then o else "modified.bib"
  | none => "modified.bib"

/-- The usage-error line printed when no mode is selected (line 140). -/
def usageMessage : String := "--doi or --bibtex much be provided"

/-- The three branches of `main`'s `if/elif/else`. -/
inductive Dispatch where
  | bibliography
  | doiList
  | usage
deriving DecidableEq, Repr

/-- Which branch of `main` an invocation takes: bibliography mode when
`args.bibtex` is truthy, else DOI-list mode when `--doi` was given with at
least one DOI, else the usage error. -/
def mainDispatch (args : Args) : Dispatch :=
  if truthyStr args.bibtex then .bibliography
  else if args.doi && !args.dois.isEmpty then .doiList
  else .usage

/-- `main` (src/main.py lines 75-141) after argument parsing: dispatch on the
mode, producing the effect trace and the process exit status (0 for a normal
return, 1 for `sys.exit(1)`).  `readBib` is the oracle for
`bibtexparser.load` on the input file. -/
def mainRun (api : String → ApiResponse) (readBib : String → List Entry) (args : Args) :
    Except String (List Effect × Nat) :=
  if truthyStr args.bibtex then do
    let effs ← bibliographyMode api (readBib (args.bibtex.getD "")) (outFilename args)
    return (effs, 0)
  else if args.doi && !args.dois.isEmpty then do
    let effs ← doiListMode api args.dois
    return (effs, 0)
  else
    .ok ([Effect.printLine usageMessage], 1)

/-! ## Helper lemmas -/

theorem getLastD_congr {α : Type} (l : List α) (d1 d2 : α) (h : l ≠ []) :
    l.getLastD d1 = l.getLastD d2 := by
  cases l with
  | nil => exact absurd rfl h
  | cons a t => rw [List.getLastD_cons, List.getLastD_cons]

theorem splitOnChar_ne_nil (c : Char) (l : List Char) : splitOnChar c l ≠ [] := by
  cases l with
  | nil => simp [splitOnChar]
  | cons x xs =>
      unfold splitOnChar
      split
      · simp
      · split <;> simp

theorem splitOnChar_of_not_mem (c : Char) (l : List Char) (h : c ∉ l) :
    splitOnChar c l = [l] := by
  induction l with
  | nil => rfl
  | cons x xs ih =>
      have hx : ¬(x == c) = true := by
        simp only [beq_iff_eq]
        intro he
        exact h (he ▸ List.mem_cons_self x xs)
      have hxs : c ∉ xs := fun hc => h (List.mem_cons_of_mem x hc)
      unfold splitOnChar
      rw [if_neg hx, ih hxs]

theorem splitOnChar_length (c : Char) (l : List Char) :
    (splitOnChar c l).length = l.count c + 1 := by
  induction l with
  | nil => simp [splitOnChar]
  | cons x xs ih =>
      by_cases h : (x == c) = true
      · unfold splitOnChar
        rw [if_pos h]
        simp only [List.length_cons, ih, List.count_cons]
        simp [h]
      · have hb : (x == c) = false := by
          cases hxc : (x == c) with
          | false => rfl
          | true => exact absurd hxc h
        unfold splitOnChar
        rw [if_neg h]
        cases hS : splitOnChar c xs with
        | nil => exact absurd hS (splitOnChar_ne_nil c xs)
        | cons s rest =>
            have h1 : (s :: rest).length = xs.count c + 1 := hS ▸ ih
            simp only [List.length_cons] at h1 ⊢
            simp only [List.count_cons, hb]
            simp
            omega

theorem splitOnChar_getLastD_append (q : List Char) (hq : '/' ∉ q) :
    ∀ (p d : List Char), (splitOnChar '/' (p ++ '/' :: q)).getLastD d = q := by
  intro p
  induction p with
  | nil =>
      intro d
      show (splitOnChar '/' ('/' :: q)).getLastD d = q
      unfold splitOnChar
      rw [if_pos (by simp), splitOnChar_of_not_mem '/' q hq,
        List.getLastD_cons, List.getLastD_cons]
      rfl
  | cons x p ih =>
      intro d
      show (splitOnChar '/' (x :: (p ++ '/' :: q))).getLastD d = q
      by_cases hx : (x == '/') = true
      · unfold splitOnChar
        rw [if_pos hx, List.getLastD_cons]
        exact ih []
      · unfold splitOnChar
        rw [if_neg hx]
        cases hS : splitOnChar '/' (p ++ '/' :: q) with
        | nil => exact absurd hS (splitOnChar_ne_nil _ _)
        | cons s rest =>
            have hrest : rest ≠ [] := by
              intro hre
              have hlen := splitOnChar_length '/' (p ++ '/' :: q)
              rw [hS, hre] at hlen
              have hmem : '/' ∈ p ++ '/' :: q :=
                List.mem_append_right p (List.mem_cons_self _ _)
              have hcnt : 0 < (p ++ '/' :: q).count '/' := List.count_pos_iff.mpr hmem
              simp only [List.length_cons, List.length_nil] at hlen
              omega
            have h1 : (s :: rest).getLastD d = q := hS ▸ ih d
            rw [List.getLastD_cons] at h1
            rw [List.getLastD_cons]
            rw [getLastD_congr rest (x :: s) s hrest]
            exact h1

/-- The final slash-separated segment of a value ending in `/PMC1234567`. -/
theorem lastSlashSegment_slash_append (p : String) :
    lastSlashSegment (p ++ "/PMC1234567") = "PMC1234567" := by
  unfold lastSlashSegment
  have hd : (p ++ "/PMC1234567").data = p.data ++ '/' :: "PMC1234567".data := by
    rw [String.data_append]
  rw [hd, splitOnChar_getLastD_append "PMC1234567".data (by decide) p.data _]

/-! ## Claim theorems -/

set_option maxRecDepth 100000 in
/-- C1: in DOI mode with input list `["10.1093/bioinformatics/btab069"]` and
the lookup API answering status 200 with result
`pmid = "33471858", pmcid = "PMC8193806"`, the program prints exactly the
annotation `[PubMed:...][PubMed Central:...][doi:...]`, byte for byte, with
the segments in the fixed order PubMed, PubMed Central, DOI. -/
theorem doi_mode_end_to_end :
    (doiListMode
        (fun _ => { status_code := 200,
                    results := [{ pmid := some "33471858", pmcid := some "PMC8193806" }] })
        ["10.1093/bioinformatics/btab069"]).map printedLines =
      .ok ["[PubMed:\\href\x7bhttp://www.ncbi.nlm.nih.gov/pubmed/33471858\x7d\x7b33471858\x7d][PubMed Central:\\href\x7bhttp://www.ncbi.nlm.nih.gov/pmc/articles/PMC8193806\x7d\x7bPMC8193806\x7d][doi:\\href\x7bhttp://dx.doi.org/10.1093/bioinformatics/btab069\x7d\x7b10.1093/bioinformatics/btab069\x7d]"] := by
  decide

set_option maxRecDepth 100000 in
/-- C5: the bare DOI `10.1006/jmbi.1994.1017` and its URL form
`https://doi.org/10.1006/jmbi.1994.1017` normalize to the identical DOI and
produce the identical outgoing lookup request URL. -/
theorem sanitize_bare_and_url_agree :
    DoiInfo.sanitize "10.1006/jmbi.1994.1017" = .ok "10.1006/jmbi.1994.1017" ∧
    DoiInfo.sanitize "https://doi.org/10.1006/jmbi.1994.1017" = .ok "10.1006/jmbi.1994.1017" ∧
    (DoiInfo.init "10.1006/jmbi.1994.1017").map requestUrl =
      (DoiInfo.init "https://doi.org/10.1006/jmbi.1994.1017").map requestUrl ∧
    (DoiInfo.init "10.1006/jmbi.1994.1017").map requestUrl =
      .ok "https://www.ebi.ac.uk/europepmc/webservices/rest/search?query=doi:10.1006/jmbi.1994.1017&format=json" := by
  decide


set_option maxRecDepth 100000 in
/-- C3 counterexample: `"http://example.com"` parses as a URL with an empty
path, and sanitize returns the empty string, not the input unchanged. -/
theorem sanitize_empty_path_not_input :
    urlparse ("http://example.com").data =
      .ok { scheme := "http".data, netloc := "example.com".data,
            path := [], params := [], query := [], fragment := [] } ∧
    DoiInfo.sanitize "http://example.com" = .ok "" ∧
    ("" : String) ≠ "http://example.com" := by
  decide

/-- C3 amended: sanitize returns the parsed path with leading slashes
stripped whenever `urlparse` succeeds — also when that path is empty, in
which case the result is `""` rather than the input; the only way the input
influences the result otherwise is a `ValueError` propagating out of
`urlparse` (the `return doi` fallback is dead code). -/
theorem sanitize_eq_lstrip_path (s : String) :
    (∀ r, urlparse s.data = .ok r →
        DoiInfo.sanitize s = .ok (String.mk (lstripSlash r.path))) ∧
    (∀ e, urlparse s.data = .error e → DoiInfo.sanitize s = .error e) := by
  constructor
  · intro r hr
    simp [DoiInfo.sanitize, hr, parseResultIsNotNone]
  · intro e he
    simp only [DoiInfo.sanitize, he]
    rfl

set_option maxRecDepth 100000 in
theorem sanitize_eq_lstrip_path_witness :
    DoiInfo.sanitize "https://doi.org/10.1006/jmbi.1994.1017" =
      .ok (String.mk (lstripSlash ("/10.1006/jmbi.1994.1017").data)) :=
  (sanitize_eq_lstrip_path "https://doi.org/10.1006/jmbi.1994.1017").1
    { scheme := "https".data, netloc := "doi.org".data,
      path := ("/10.1006/jmbi.1994.1017").data, params := [], query := [],
      fragment := [] }
    (by decide)

set_option maxRecDepth 100000 in
/-- C10 counterexample: sanitize is not idempotent.  `sanitize "/a:b"`
returns `"a:b"`, but sanitizing that output again returns `"b"` (the re-parse
reads `a:` as a URL scheme), so `sanitize (sanitize "/a:b") ≠ sanitize "/a:b"`. -/
theorem sanitize_not_idempotent :
    DoiInfo.sanitize "/a:b" = .ok "a:b" ∧
    DoiInfo.sanitize "a:b" = .ok "b" ∧
    ("b" : String) ≠ "a:b" := by
  decide

set_option maxRecDepth 100000 in
/-- C7 counterexample: the emitted warning lines carry an `"Error: "` prefix,
so they are not exactly `"DOI not found - <doi>"` / `"Wrong DOI - <doi>"`. -/
theorem warning_has_error_prefix :
    (DoiInfo.init "10.1/x").map
        (fun info =>
          printedLines (info.analyze (fun _ => { status_code := 404, results := [] })).2) =
      .ok ["Error: DOI not found - 10.1/x"] ∧
    (DoiInfo.init "10.1/x").map
        (fun info =>
          printedLines (info.analyze (fun _ => { status_code := 200, results := [] })).2) =
      .ok ["Error: Wrong DOI - 10.1/x"] ∧
    ("Error: DOI not found - 10.1/x" : String) ≠ "DOI not found - 10.1/x" ∧
    ("Error: Wrong DOI - 10.1/x" : String) ≠ "Wrong DOI - 10.1/x" := by
  decide

/-- C7 amended: for a non-200 response the single warning line printed is
exactly `"Error: DOI not found - <doi>"`, and for a 200 response with an
empty result list it is exactly `"Error: Wrong DOI - <doi>"`, with `<doi>`
the normalized DOI. -/
theorem analyze_warning_lines (info : DoiInfo) (api : String → ApiResponse) :
    ((api (requestUrl info)).status_code ≠ 200 →
      printedLines (info.analyze api).2 = ["Error: DOI not found - " ++ info.doi]) ∧
    ((api (requestUrl info)).status_code = 200 → (api (requestUrl info)).results = [] →
      printedLines (info.analyze api).2 = ["Error: Wrong DOI - " ++ info.doi]) := by
  constructor
  · intro h
    simp [DoiInfo.analyze, h, printedLines]
  · intro h1 h2
    simp [DoiInfo.analyze, h1, h2, printedLines]

theorem analyze_warning_lines_witness :
    printedLines (({ doi := "10.1/x" } : DoiInfo).analyze
        (fun _ => { status_code := 404, results := [] })).2 =
      ["Error: DOI not found - " ++ "10.1/x"] :=
  (analyze_warning_lines { doi := "10.1/x" }
    (fun _ => { status_code := 404, results := [] })).1 (by decide)

/-- C6: when a successful lookup's first result carries a `pmcid` value, only
its final slash-separated path segment is stored as the PMCID and appended to
the PubMed Central link; in particular `"PMC1234567"` itself and every value
of the form `<prefix>/PMC1234567` yield `"PMC1234567"`. -/
theorem pmcid_last_segment (info : DoiInfo) (api : String → ApiResponse)
    (data : ApiResult) (rest : List ApiResult) (v : String)
    (h200 : (api (requestUrl info)).status_code = 200)
    (hres : (api (requestUrl info)).results = data :: rest)
    (hv : data.pmcid = some v) :
    ((info.analyze api).1.pmcid = some (lastSlashSegment v) ∧
     (info.analyze api).1.pmc_link = info.pmc_link ++ lastSlashSegment v) ∧
    lastSlashSegment "PMC1234567" = "PMC1234567" ∧
    (∀ p : String, lastSlashSegment (p ++ "/PMC1234567") = "PMC1234567") := by
  refine ⟨?_, by decide, lastSlashSegment_slash_append⟩
  cases hpm : data.pmid with
  | some p => simp [DoiInfo.analyze, h200, hres, hv, hpm]
  | none => simp [DoiInfo.analyze, h200, hres, hv, hpm]

theorem pmcid_last_segment_witness :
    (({ doi := "10.1/x" } : DoiInfo).analyze
        (fun _ => { status_code := 200,
                    results := [{ pmid := none, pmcid := some "x/y/PMC1234567" }] })).1.pmcid =
      some (lastSlashSegment "x/y/PMC1234567") :=
  ((pmcid_last_segment { doi := "10.1/x" }
      (fun _ => { status_code := 200,
                  results := [{ pmid := none, pmcid := some "x/y/PMC1234567" }] })
      { pmid := none, pmcid := some "x/y/PMC1234567" } [] "x/y/PMC1234567"
      (by decide) (by decide) (by decide)).1).1

theorem DoiInfo.init_fields (doi0 : String) (info : DoiInfo)
    (h : DoiInfo.init doi0 = .ok info) :
    info.pmid = none ∧ info.pmcid = none ∧
    info.doi_link = "http://dx.doi.org/" ++ info.doi ∧
    info.pm_link = "http://www.ncbi.nlm.nih.gov/pubmed/" ∧
    info.pmc_link = "http://www.ncbi.nlm.nih.gov/pmc/articles/" := by
  cases hs : DoiInfo.sanitize doi0 with
  | error e =>
      rw [DoiInfo.init, hs] at h
      exact absurd h (by simp [Except.bind])
  | ok d =>
      rw [DoiInfo.init, hs] at h
      have h2 : Except.ok (ε := String)
          ({ doi := d, doi_link := "http://dx.doi.org/" ++ d } : DoiInfo) = .ok info := h
      cases h2
      simp

/-- C4: for every freshly constructed `DoiInfo`, a non-200 response or a 200
response with an empty result list leaves PMID and PMCID absent, prints
exactly one warning line, and renders an annotation that is exactly the single
bracketed DOI segment; no exception is raised (analyze returns normally). -/
theorem lookup_not_found_degrades (doi0 : String) (info : DoiInfo)
    (api : String → ApiResponse)
    (hinit : DoiInfo.init doi0 = .ok info)
    (h : (api (requestUrl info)).status_code ≠ 200 ∨ (api (requestUrl info)).results = []) :
    (info.analyze api).1.pmid = none ∧
    (info.analyze api).1.pmcid = none ∧
    (printedLines (info.analyze api).2).length = 1 ∧
    (info.analyze api).1.str =
      "[doi:\\href\x7b" ++ info.doi_link ++ "\x7d\x7b" ++ info.doi ++ "\x7d]" := by
  obtain ⟨hpmid, hpmcid, -, -, -⟩ := DoiInfo.init_fields doi0 info hinit
  have hkeep : (info.analyze api).1 = info := by
    by_cases h2 : (api (requestUrl info)).status_code = 200
    · rcases h with h | h
      · exact absurd h2 h
      · simp [DoiInfo.analyze, h2, h]
    · simp [DoiInfo.analyze, h2]
  have hw : (printedLines (info.analyze api).2).length = 1 := by
    by_cases h2 : (api (requestUrl info)).status_code = 200
    · rcases h with h | h
      · exact absurd h2 h
      · simp [DoiInfo.analyze, h2, h, printedLines]
    · simp [DoiInfo.analyze, h2, printedLines]
  refine ⟨?_, ?_, hw, ?_⟩
  · rw [hkeep]
    exact hpmid
  · rw [hkeep]
    exact hpmcid
  · rw [hkeep, DoiInfo.str, hpmid, hpmcid]
    simp

theorem lookup_not_found_degrades_witness :
    ((({ doi := "10.1/x", doi_link := "http://dx.doi.org/" ++ "10.1/x" } : DoiInfo).analyze
        (fun _ => { status_code := 404, results := [] })).1.pmid = none) ∧
    ((({ doi := "10.1/x", doi_link := "http://dx.doi.org/" ++ "10.1/x" } : DoiInfo).analyze
        (fun _ => { status_code := 404, results := [] })).1.str =
      "[doi:\\href\x7b" ++ ("http://dx.doi.org/" ++ "10.1/x") ++ "\x7d\x7b" ++ "10.1/x" ++ "\x7d]") := by
  have h := lookup_not_found_degrades "10.1/x"
    { doi := "10.1/x", doi_link := "http://dx.doi.org/" ++ "10.1/x" }
    (fun _ => { status_code := 404, results := [] })
    (by decide) (Or.inl (by decide))
  exact ⟨h.1, h.2.2.2⟩

theorem processEntry_eq_of_doi (api : String → ApiResponse) (entry : Entry) (d : String)
    (hd : getField entry "doi" = some d) :
    processEntry api entry = Except.bind (DoiInfo.init d) (fun info =>
      match getField entry "note" with
      | some old =>
          Except.ok (setField entry "note" (old ++ (info.analyze api).1.str),
            (info.analyze api).2)
      | none =>
          Except.ok (setField entry "note" ((info.analyze api).1.str),
            (info.analyze api).2)) := by
  rw [processEntry, hd]
  rfl

theorem getField_setField_self (e : Entry) (k v : String) :
    getField (setField e k v) k = some v := by
  induction e with
  | nil => simp [setField, getField]
  | cons kv rest ih =>
      obtain ⟨k1, v1⟩ := kv
      by_cases h : (k1 == k) = true
      · simp [setField, getField, h]
      · simp [setField, getField, h, ih]

theorem getField_setField_ne (e : Entry) (k v k2 : String) (h : k2 ≠ k) :
    getField (setField e k v) k2 = getField e k2 := by
  have hkk : (k == k2) = false := by
    simp only [beq_eq_false_iff_ne]
    exact fun he => h he.symm
  induction e with
  | nil => simp [setField, getField, hkk]
  | cons kv rest ih =>
      obtain ⟨k1, v1⟩ := kv
      by_cases h1 : (k1 == k) = true
      · have hk1 : k1 = k := by simpa using h1
        simp [setField, getField, h1, hk1, hkk]
      · simp [setField, getField, h1, ih]

/-- C2: the bibliography rewrite is a frame: an entry without a `doi` field
is returned unchanged; an entry with a `doi` field keeps every field other
than `note` unchanged, and its `note` afterwards is the old note with the
rendered annotation appended (the annotation alone when no note existed). -/
theorem bib_rewrite_frame (api : String → ApiResponse) (entry e2 : Entry)
    (effs : List Effect)
    (h : processEntry api entry = .ok (e2, effs)) :
    (getField entry "doi" = none → e2 = entry) ∧
    (∀ d, getField entry "doi" = some d →
      (∀ k, k ≠ "note" → getField e2 k = getField entry k) ∧
      ∃ ann, annotationFor api d = .ok ann ∧
        (∀ old, getField entry "note" = some old →
          getField e2 "note" = some (old ++ ann)) ∧
        (getField entry "note" = none → getField e2 "note" = some ann)) := by
  constructor
  · intro hd
    simp [processEntry, hd] at h
    exact h.1.symm
  · intro d hd
    cases hi : DoiInfo.init d with
    | error e =>
        rw [processEntry_eq_of_doi api entry d hd, hi] at h
        exact absurd h (by simp [Except.bind])
    | ok info =>
        have hann : annotationFor api d = .ok ((info.analyze api).1.str) := by
          rw [annotationFor, hi]
          rfl
        cases hn : getField entry "note" with
        | some old =>
            rw [processEntry_eq_of_doi api entry d hd, hi] at h
            have h1 : (match getField entry "note" with
              | some old =>
                  Except.ok (ε := String)
                    (setField entry "note" (old ++ (info.analyze api).1.str),
                      (info.analyze api).2)
              | none =>
                  Except.ok (setField entry "note" ((info.analyze api).1.str),
                    (info.analyze api).2)) = .ok (e2, effs) := h
            rw [hn] at h1
            have h2 : Except.ok (ε := String)
                (setField entry "note" (old ++ (info.analyze api).1.str), (info.analyze api).2) =
                .ok (e2, effs) := h1
            cases h2
            refine ⟨fun k hk => getField_setField_ne entry "note" _ k hk,
              (info.analyze api).1.str, hann, ?_, ?_⟩
            · intro old2 hold2
              cases hold2
              exact getField_setField_self entry "note" _
            · intro hnone
              cases hnone
        | none =>
            rw [processEntry_eq_of_doi api entry d hd, hi] at h
            have h1 : (match getField entry "note" with
              | some old =>
                  Except.ok (ε := String)
                    (setField entry "note" (old ++ (info.analyze api).1.str),
                      (info.analyze api).2)
              | none =>
                  Except.ok (setField entry "note" ((info.analyze api).1.str),
                    (info.analyze api).2)) = .ok (e2, effs) := h
            rw [hn] at h1
            have h2 : Except.ok (ε := String)
                (setField entry "note" ((info.analyze api).1.str), (info.analyze api).2) =
                .ok (e2, effs) := h1
            cases h2
            refine ⟨fun k hk => getField_setField_ne entry "note" _ k hk,
              (info.analyze api).1.str, hann, ?_, ?_⟩
            · intro old2 hold2
              cases hold2
            · intro _
              exact getField_setField_self entry "note" _

set_option maxRecDepth 100000 in
theorem bib_rewrite_frame_witness :
    getField [("doi", "10.1/x"), ("title", "T"),
      ("note", "[doi:\\href\x7bhttp://dx.doi.org/10.1/x\x7d\x7b10.1/x\x7d]")] "title" =
      getField [("doi", "10.1/x"), ("title", "T")] "title" := by
  have h := (bib_rewrite_frame (fun _ => { status_code := 404, results := [] })
      [("doi", "10.1/x"), ("title", "T")]
      [("doi", "10.1/x"), ("title", "T"),
        ("note", "[doi:\\href\x7bhttp://dx.doi.org/10.1/x\x7d\x7b10.1/x\x7d]")]
      [Effect.httpGet
          "https://www.ebi.ac.uk/europepmc/webservices/rest/search?query=doi:10.1/x&format=json",
        Effect.printLine "Error: DOI not found - 10.1/x"]
      (by decide)).2 "10.1/x" (by decide)
  exact h.1 "title" (by decide)

/-- C8: when neither bibliography mode nor DOI mode with at least one DOI is
selected, the program prints the usage-error line and exits with status 1,
performing no HTTP lookup and writing no output file. -/
theorem usage_error_exit (api : String → ApiResponse) (readBib : String → List Entry)
    (args : Args) (h1 : truthyStr args.bibtex = false)
    (h2 : args.doi = false ∨ args.dois = []) :
    mainRun api readBib args = .ok ([Effect.printLine usageMessage], 1) ∧
    printedLines [Effect.printLine usageMessage] = [usageMessage] ∧
    lookupUrls [Effect.printLine usageMessage] = [] ∧
    writtenFiles [Effect.printLine usageMessage] = [] ∧
    (1 : Nat) ≠ 0 := by
  have hcond : (args.doi && !args.dois.isEmpty) = false := by
    rcases h2 with h2 | h2 <;> simp [h2]
  refine ⟨?_, by decide, by decide, by decide, by decide⟩
  simp [mainRun, h1, hcond]

theorem usage_error_exit_witness :
    mainRun (fun _ => { status_code := 404, results := [] }) (fun _ => []) {} =
      .ok ([Effect.printLine usageMessage], 1) :=
  (usage_error_exit (fun _ => { status_code := 404, results := [] }) (fun _ => []) {}
    (by decide) (Or.inl rfl)).1

/-- C9: the two CLI modes are mutually exclusive: every invocation dispatches
to exactly one of bibliography mode (the Rewriter), DOI-list mode (the
Resolver directly), or the usage error — `mainRun` computes exactly the
result of the single dispatched branch, never a combination. -/
theorem modes_mutually_exclusive (api : String → ApiResponse)
    (readBib : String → List Entry) (args : Args) :
    ∃ d : Dispatch, mainDispatch args = d ∧
      mainRun api readBib args =
        (match d with
         | Dispatch.bibliography =>
             (bibliographyMode api (readBib (args.bibtex.getD "")) (outFilename args)).map
               (fun effs => (effs, 0))
         | Dispatch.doiList =>
             (doiListMode api args.dois).map (fun effs => (effs, 0))
         | Dispatch.usage => .ok ([Effect.printLine usageMessage], 1)) := by
  by_cases hb : truthyStr args.bibtex = true
  · refine ⟨Dispatch.bibliography, by simp [mainDispatch, hb], ?_⟩
    simp only [mainRun, hb, if_true]
    cases hres : bibliographyMode api (readBib (args.bibtex.getD "")) (outFilename args) <;>
      simp [hres, Except.map, Except.bind]
  · have hb2 : truthyStr args.bibtex = false := by
      cases hv : truthyStr args.bibtex with
      | false => rfl
      | true => exact absurd hv hb
    by_cases hd : (args.doi && !args.dois.isEmpty) = true
    · refine ⟨Dispatch.doiList, by simp [mainDispatch, hb2, hd], ?_⟩
      simp only [mainRun, hb2, hd, if_true, Bool.false_eq_true, if_false]
      cases hres : doiListMode api args.dois <;>
        simp [hres, Except.map, Except.bind]
    · have hd2 : (args.doi && !args.dois.isEmpty) = false := by
        cases hv : (args.doi && !args.dois.isEmpty) with
        | false => rfl
        | true => exact absurd hv hd
      refine ⟨Dispatch.usage, by simp [mainDispatch, hb2, hd2], ?_⟩
      simp [mainRun, hb2, hd2]

theorem splitFirst_none (c : Char) (l : List Char) : splitFirst c l = none ↔ c ∉ l := by
  unfold splitFirst
  split <;> simp_all

theorem splitFirst_some_subset (c : Char) (l b a : List Char)
    (h : splitFirst c l = some (b, a)) : b ⊆ l ∧ a ⊆ l := by
  unfold splitFirst at h
  split at h
  · cases h
    constructor
    · exact (List.takeWhile_sublist _).subset
    · intro x hx
      exact (List.dropWhile_sublist _).subset (List.drop_subset 1 _ hx)
  · cases h

theorem splitFirst_some_fst (c : Char) (l b a : List Char)
    (h : splitFirst c l = some (b, a)) : c ∉ b := by
  unfold splitFirst at h
  split at h
  · cases h
    intro hc
    have h2 := List.mem_takeWhile_imp hc
    simp at h2
  · cases h

theorem schemeSplit_snd_subset (l : List Char) : (schemeSplit l).2 ⊆ l := by
  unfold schemeSplit
  cases hs : splitFirst ':' l with
  | none => exact fun x hx => hx
  | some ba =>
      obtain ⟨b, a⟩ := ba
      dsimp only
      split
      · exact (splitFirst_some_subset ':' l b a hs).2
      · exact fun x hx => hx

theorem netlocSplit_snd_subset (l : List Char) : (netlocSplit l).2 ⊆ l := by
  unfold netlocSplit
  split
  · intro x hx
    exact List.drop_subset 2 l ((List.dropWhile_sublist _).subset hx)
  · exact fun x hx => hx

theorem fragmentSplit_fst_subset (l : List Char) : (fragmentSplit l).1 ⊆ l := by
  unfold fragmentSplit
  cases hs : splitFirst '#' l with
  | none => exact fun x hx => hx
  | some ba =>
      obtain ⟨b, a⟩ := ba
      exact (splitFirst_some_subset '#' l b a hs).1

theorem querySplit_fst_subset (l : List Char) : (querySplit l).1 ⊆ l := by
  unfold querySplit
  cases hs : splitFirst '?' l with
  | none => exact fun x hx => hx
  | some ba =>
      obtain ⟨b, a⟩ := ba
      exact (splitFirst_some_subset '?' l b a hs).1

theorem fragmentSplit_fst_no_hash (l : List Char) : '#' ∉ (fragmentSplit l).1 := by
  unfold fragmentSplit
  cases hs : splitFirst '#' l with
  | none => exact (splitFirst_none '#' l).mp hs
  | some ba =>
      obtain ⟨b, a⟩ := ba
      exact splitFirst_some_fst '#' l b a hs

theorem querySplit_fst_no_query (l : List Char) : '?' ∉ (querySplit l).1 := by
  unfold querySplit
  cases hs : splitFirst '?' l with
  | none => exact (splitFirst_none '?' l).mp hs
  | some ba =>
      obtain ⟨b, a⟩ := ba
      exact splitFirst_some_fst '?' l b a hs

theorem splitparams_fst_subset (l : List Char) : (splitparams l).1 ⊆ l := by
  have hseg : (l.reverse.takeWhile (fun c => c != '/')).reverse ⊆ l := by
    intro x hx
    exact List.mem_reverse.mp
      ((List.takeWhile_sublist _).subset (List.mem_reverse.mp hx))
  unfold splitparams
  split
  · cases hs : splitFirst ';' ((l.reverse.takeWhile (fun c => c != '/')).reverse) with
    | none => exact fun x hx => hx
    | some ba =>
        obtain ⟨b, a⟩ := ba
        dsimp only
        intro x hx
        rcases List.mem_append.mp hx with hx | hx
        · exact List.take_subset _ l hx
        · exact hseg ((splitFirst_some_subset ';' _ b a hs).1 hx)
  · cases hs : splitFirst ';' l with
    | none => exact fun x hx => List.dropLast_subset l hx
    | some ba =>
        obtain ⟨b, a⟩ := ba
        exact (splitFirst_some_subset ';' l b a hs).1

theorem urlsplit_ok_path (l : List Char) (r : SplitResult) (h : urlsplit l = .ok r) :
    r.path =
      (querySplit (fragmentSplit
        (netlocSplit (schemeSplit (removeUnsafe (lstripC0 l))).2).2).1).1 := by
  simp only [urlsplit] at h
  split at h
  · exact absurd h (by simp)
  · split at h
    · exact absurd h (by simp)
    · split at h
      · cases h
        rfl
      · exact absurd h (by simp)

theorem urlsplit_path_facts (l : List Char) (r : SplitResult) (h : urlsplit l = .ok r) :
    '#' ∉ r.path ∧ '?' ∉ r.path ∧ r.path ⊆ removeUnsafe (lstripC0 l) := by
  have hp := urlsplit_ok_path l r h
  rw [hp]
  refine ⟨?_, querySplit_fst_no_query _, ?_⟩
  · intro hc
    exact fragmentSplit_fst_no_hash _ (querySplit_fst_subset _ hc)
  · intro x hx
    exact schemeSplit_snd_subset _
      (netlocSplit_snd_subset _
        (fragmentSplit_fst_subset _ (querySplit_fst_subset _ hx)))

theorem urlparse_path_facts (l : List Char) (r : ParseResult) (h : urlparse l = .ok r) :
    '#' ∉ r.path ∧ '?' ∉ r.path ∧ r.path ⊆ removeUnsafe (lstripC0 l) := by
  cases hs : urlsplit l with
  | error e =>
      rw [urlparse, hs] at h
      have h2 : Except.error (α := ParseResult) (ε := String) e = .ok r := h
      cases h2
  | ok sr =>
      rw [urlparse, hs] at h
      have hfacts := urlsplit_path_facts l sr hs
      have h2 : (if sr.scheme ∈ uses_params ∧ ';' ∈ sr.path then
          Except.ok (ε := String)
            (ParseResult.mk sr.scheme sr.netloc (splitparams sr.path).1
              (splitparams sr.path).2 sr.query sr.fragment)
        else
          Except.ok
            (ParseResult.mk sr.scheme sr.netloc sr.path [] sr.query sr.fragment)) =
          .ok r := h
      by_cases hc : sr.scheme ∈ uses_params ∧ ';' ∈ sr.path
      · rw [if_pos hc] at h2
        cases h2
        have hsub : (splitparams sr.path).1 ⊆ sr.path := splitparams_fst_subset sr.path
        exact ⟨fun hm => hfacts.1 (hsub hm), fun hm => hfacts.2.1 (hsub hm),
          fun x hx => hfacts.2.2 (hsub hx)⟩
      · rw [if_neg hc] at h2
        cases h2
        exact hfacts

theorem removeUnsafe_not_mem (l : List Char) :
    '\t' ∉ removeUnsafe l ∧ '\r' ∉ removeUnsafe l ∧ '\n' ∉ removeUnsafe l := by
  refine ⟨?_, ?_, ?_⟩ <;>
    · intro hm
      have h2 := (List.mem_filter.mp hm).2
      simp at h2

theorem removeUnsafe_eq_self (l : List Char)
    (h1 : '\t' ∉ l) (h2 : '\r' ∉ l) (h3 : '\n' ∉ l) : removeUnsafe l = l := by
  apply List.filter_eq_self.mpr
  intro a ha
  have e1 : a ≠ '\t' := fun he => h1 (he ▸ ha)
  have e2 : a ≠ '\r' := fun he => h2 (he ▸ ha)
  have e3 : a ≠ '\n' := fun he => h3 (he ▸ ha)
  simp [e1, e2, e3]

theorem dropWhile_head_false (p : Char → Bool) (l : List Char) :
    l.dropWhile p = [] ∨ ∃ x xs, l.dropWhile p = x :: xs ∧ p x = false := by
  induction l with
  | nil => exact Or.inl rfl
  | cons a t ih =>
      rw [List.dropWhile_cons]
      by_cases h : p a = true
      · rw [if_pos h]
        exact ih
      · rw [if_neg h]
        refine Or.inr ⟨a, t, rfl, ?_⟩
        cases hv : p a with
        | false => rfl
        | true => exact absurd hv h

theorem dropWhile_eq_self_of (p : Char → Bool) (l : List Char)
    (h : ∀ x xs, l = x :: xs → p x = false) : l.dropWhile p = l := by
  cases l with
  | nil => rfl
  | cons a t =>
      rw [List.dropWhile_cons, if_neg]
      simp [h a t rfl]

theorem sanitize_fixed (t : String)
    (hcolon : ':' ∉ t.data) (hsemi : ';' ∉ t.data)
    (hhash : '#' ∉ t.data) (hquest : '?' ∉ t.data)
    (htab : '\t' ∉ t.data) (hcr : '\r' ∉ t.data) (hlf : '\n' ∉ t.data)
    (hC0 : lstripC0 t.data = t.data)
    (hsl : ∀ x xs, t.data = x :: xs → (x == '/') = false) :
    DoiInfo.sanitize t = .ok t := by
  have hRU : removeUnsafe t.data = t.data := removeUnsafe_eq_self t.data htab hcr hlf
  have hScheme : schemeSplit t.data = ([], t.data) := by
    unfold schemeSplit
    rw [(splitFirst_none ':' t.data).mpr hcolon]
  have hNet : netlocSplit t.data = ([], t.data) := by
    unfold netlocSplit
    rw [if_neg]
    intro hEq
    cases ht : t.data with
    | nil =>
        rw [ht] at hEq
        simp at hEq
    | cons x xs =>
        have hx := hsl x xs ht
        rw [ht] at hEq
        simp [List.take_succ_cons] at hEq
        simp [hEq.1] at hx
  have hFrag : fragmentSplit t.data = (t.data, []) := by
    unfold fragmentSplit
    rw [(splitFirst_none '#' t.data).mpr hhash]
  have hQuery : querySplit t.data = (t.data, []) := by
    unfold querySplit
    rw [(splitFirst_none '?' t.data).mpr hquest]
  have hsplitEq : urlsplit t.data = .ok ⟨[], [], t.data, [], []⟩ := by
    simp [urlsplit, hC0, hRU, hScheme, hNet, hFrag, hQuery]
  have hparse : urlparse t.data = .ok ⟨[], [], t.data, [], [], []⟩ := by
    rw [urlparse, hsplitEq]
    have hgoal : (if ([] : List Char) ∈ uses_params ∧ ';' ∈ t.data then
        Except.ok (ε := String)
          (ParseResult.mk [] [] (splitparams t.data).1 (splitparams t.data).2 [] [])
      else Except.ok (ParseResult.mk [] [] t.data [] [] [])) =
        .ok (ParseResult.mk [] [] t.data [] [] []) := by
      rw [if_neg (fun hc => hsemi hc.2)]
    exact hgoal
  have hL : lstripSlash t.data = t.data :=
    dropWhile_eq_self_of _ _ (fun x xs hx => hsl x xs hx)
  rw [DoiInfo.sanitize, hparse]
  have hfin : Except.ok (ε := String) (String.mk (lstripSlash t.data)) = .ok t := by
    rw [hL]
  exact hfin

/-- C10 amended: sanitize is idempotent on every output that contains no `:`
and no `;` and does not begin with a control/space character: if
`sanitize s = t` and `t` is such a string, then `sanitize t = t`.  In general
a second application can strip further (a counterexample re-reads a scheme,
see the accompanying counterexample theorem; similar strippings occur for a
`;params` suffix or a leading space surviving into the path). -/
theorem sanitize_idempotent_on_clean_outputs (s t : String)
    (h : DoiInfo.sanitize s = .ok t)
    (hcolon : ':' ∉ t.data) (hsemi : ';' ∉ t.data)
    (hC0 : lstripC0 t.data = t.data) :
    DoiInfo.sanitize t = .ok t := by
  cases hp : urlparse s.data with
  | error e =>
      rw [DoiInfo.sanitize, hp] at h
      have h2 : Except.error (α := String) (ε := String) e = .ok t := h
      cases h2
  | ok r =>
      rw [DoiInfo.sanitize, hp] at h
      have h2 : Except.ok (ε := String) (String.mk (lstripSlash r.path)) = .ok t := h
      cases h2
      have hfacts := urlparse_path_facts s.data r hp
      have hsub : (String.mk (lstripSlash r.path)).data ⊆ r.path :=
        (List.dropWhile_sublist _).subset
      have hunsafe := removeUnsafe_not_mem (lstripC0 s.data)
      refine sanitize_fixed _ hcolon hsemi
        (fun hm => hfacts.1 (hsub hm))
        (fun hm => hfacts.2.1 (hsub hm))
        (fun hm => hunsafe.1 (hfacts.2.2 (hsub hm)))
        (fun hm => hunsafe.2.1 (hfacts.2.2 (hsub hm)))
        (fun hm => hunsafe.2.2 (hfacts.2.2 (hsub hm)))
        hC0 ?_
      intro x xs hx
      rcases dropWhile_head_false (fun c => c == '/') r.path with hd | ⟨y, ys, hd, hy⟩
      · rw [lstripSlash, hd] at hx
        cases hx
      · rw [lstripSlash, hd] at hx
        cases hx
        exact hy

set_option maxRecDepth 100000 in
theorem sanitize_idempotent_on_clean_outputs_witness :
    DoiInfo.sanitize "10.1006/jmbi.1994.1017" = .ok "10.1006/jmbi.1994.1017" :=
  sanitize_idempotent_on_clean_outputs "https://doi.org/10.1006/jmbi.1994.1017"
    "10.1006/jmbi.1994.1017" (by decide) (by decide) (by decide) (by decide)
